import Mathlib

/-
Verification development for the `pythermite` repository
(`src/thermite/thermite.py`).

The repository wraps an external native engine (`libthermite`) exposing four
calls: `thermite_header_count`, `thermite_headers`, `thermite_data_count`,
`thermite_data`.  We model the engine as a record of the values those calls
return for the one file path a handle owns.  The Python class `Thermite` is
modelled as a record carrying the engine, the decoded header-name catalog and
the per-handle cache (`self.__data`, a dict modelled as an association list).
IEEE-754 double values are modelled as exact rationals, and the int64
timestamps as `Int`; the microsecond-to-second conversion `raw.T[0] / 1e6`
becomes exact division in `ℚ`.  Pandas dataframes are modelled as an index
list plus column-major cells; `DataFrame.join how=outer` is modelled for the
duplicate-free indexes arising here as the sorted deduplicated union of the
two indexes with each column reindexed by exact label equality, raising on
overlapping column names exactly as pandas does.
-/

/-- One decoded sample: (timestamp in microseconds since epoch, value). -/
abbrev Sample := Int × ℚ

/-- Mirrors the C struct binding `_datapoint_t` (int64 timestamp, double value). -/
structure Datapoint where
  timestamp : Int
  value : ℚ
deriving DecidableEq

/-- The engine boundary: the return values of the four `libthermite` calls for
the single file path owned by a handle.  `header_names` are the decoded names
the header-populate call delivers, in delivery (on-disk) order; `data_buf` is
the sample buffer the data-populate call delivers for a signal name. -/
structure Engine where
  header_count : Int
  headers_ret : Int
  header_names : List String
  data_count : String → Int
  data_ret : String → Int
  data_buf : String → List Datapoint

/-- The `Exception` messages the Python code raises, structured.
`loadFile code` mirrors the f-string
`"Error when loading thermite file. Error code {code}"`; `loadSignal name code`
mirrors `"Error when loading signal {name} from thermite file. Error code {code}"`. -/
inductive ThermiteError where
  | loadFile (code : Int)
  | loadSignal (name : String) (code : Int)
deriving DecidableEq

/-- State of a `Thermite` handle: the engine, `self.__headers`, and the cache
`self.__data` (Python dict, modelled as an insertion-ordered association list). -/
structure Thermite where
  engine : Engine
  headers : List String
  data : List (String × List Sample)

/-- `Thermite.__load_headers`: queries the header count, then the header
buffer.  Note the second raise reproduces the source literally: its message
interpolates `header_count`, not `err`. -/
def load_headers (e : Engine) : Except ThermiteError (List String) :=
  let header_count := e.header_count
  if header_count < 0 then
    Except.error (ThermiteError.loadFile header_count)
  else
    let err := e.headers_ret
    if err < 0 then
      Except.error (ThermiteError.loadFile header_count)
    else
      Except.ok e.header_names

/-- `Thermite.__init__`: loads headers; a failure there fails construction. -/
def Thermite.new (e : Engine) : Except ThermiteError Thermite :=
  match load_headers e with
  | Except.error err => Except.error err
  | Except.ok hs => Except.ok ⟨e, hs, []⟩

/-- `Thermite.__getitem__`.  Returns the Python outcome (result or raised
error), the post-call handle state, and the number of engine data calls the
invocation performed (0, 1 or 2), so that engine traffic is observable. -/
def getitem (t : Thermite) (name : String) :
    Except ThermiteError (List Sample) × Thermite × Nat :=
  if name ∉ t.headers then
    (Except.ok [], t, 0)
  else
    match t.data.lookup name with
    | some v => (Except.ok v, t, 0)
    | none =>
      let data_count := t.engine.data_count name
      if data_count < 0 then
        (Except.error (ThermiteError.loadSignal name data_count), t, 1)
      else
        let err := t.engine.data_ret name
        if err < 0 then
          (Except.error (ThermiteError.loadSignal name err), t, 2)
        else
          let python_result :=
            (t.engine.data_buf name).map (fun d => (d.timestamp, d.value))
          (Except.ok python_result,
            { t with data := t.data ++ [(name, python_result)] }, 2)

/-- `Thermite.signals`: returns `self.__headers`. -/
def Thermite.signals (t : Thermite) : List String := t.headers

/-- `Thermite.clear_cache`: `self.__data = dict()`. -/
def clear_cache (t : Thermite) : Thermite := { t with data := [] }

/-- A pandas DataFrame as used by `load_df`: a numeric index (row labels, in
row order) and named columns, each a list of cells aligned with the index. -/
structure DataFrame where
  index : List ℚ
  cols : List (String × List (Option ℚ))
deriving DecidableEq

/-- `pd.DataFrame()`. -/
def DataFrame.empty : DataFrame := ⟨[], []⟩

/-- The column names of a frame, in column order. -/
def DataFrame.colNames (df : DataFrame) : List String := df.cols.map Prod.fst

/-- The cell a column holds at row label `x`: the cell at the first position
whose label equals `x`, `none` when the label is absent (pandas reindexing by
exact label equality). -/
def cellAt : List ℚ → List (Option ℚ) → ℚ → Option ℚ
  | [], _, _ => none
  | _ :: _, [], _ => none
  | a :: idx, c :: cells, x => if a = x then c else cellAt idx cells x

/-- Reindex a column onto a new index `u`. -/
def reindexCol (idx : List ℚ) (cells : List (Option ℚ)) (u : List ℚ) :
    List (Option ℚ) :=
  u.map (cellAt idx cells)

/-- The sorted, deduplicated union of two row indexes (`pandas.Index.union`,
as produced by an outer join). -/
def sortedUnion (l r : List ℚ) : List ℚ :=
  List.insertionSort (· ≤ ·) ((l ++ r).dedup)

/-- `left.join(right, how='outer')`: raises `ValueError` when column names
overlap (no suffix is supplied in the source), otherwise reindexes both sides
onto the sorted union of the indexes and concatenates the columns, left first. -/
def DataFrame.join (l r : DataFrame) : Except (List String) DataFrame :=
  let overlap := r.colNames.filter (fun n => l.colNames.contains n)
  if overlap.isEmpty then
    let u := sortedUnion l.index r.index
    Except.ok ⟨u,
      l.cols.map (fun c => (c.1, reindexCol l.index c.2 u)) ++
      r.cols.map (fun c => (c.1, reindexCol r.index c.2 u))⟩
  else
    Except.error overlap

/-- The single-signal frame built inside `load_df`'s loop: index
`raw.T[0] / 1e6` (microseconds to seconds, exact here), one column named
after the signal holding `raw.T[1]`. -/
def local_df (name : String) (raw : List Sample) : DataFrame :=
  ⟨raw.map (fun s => (s.1 : ℚ) / 1000000),
   [(name, raw.map (fun s => some s.2))]⟩

/-- Forward-fill one column: each `none` cell is replaced by the most recent
preceding `some` value; leading `none`s stay missing. -/
def ffillCol (last : Option ℚ) : List (Option ℚ) → List (Option ℚ)
  | [] => []
  | some v :: cs => some v :: ffillCol (some v) cs
  | none :: cs => last :: ffillCol last cs

/-- `df.ffill(inplace=True)`: forward-fill every column; the index is untouched. -/
def DataFrame.ffill (df : DataFrame) : DataFrame :=
  { df with cols := df.cols.map (fun c => (c.1, ffillCol none c.2)) }

/-- Whether a column holds a non-missing cell at row position `i`. -/
def cellSome (cells : List (Option ℚ)) (i : Nat) : Bool :=
  match cells.get? i with
  | some (some _) => true
  | _ => false

/-- Whether row position `i` holds at least one non-missing cell. -/
def rowHasValue (df : DataFrame) (i : Nat) : Bool :=
  df.cols.any (fun c => cellSome c.2 i)

/-- First position at or after `s`, within the next `n` positions, satisfying `p`. -/
def findIdxFrom (p : Nat → Bool) : Nat → Nat → Option Nat
  | _, 0 => none
  | s, n + 1 => if p s then some s else findIdxFrom p (s + 1) n

/-- The first row position holding at least one non-missing cell. -/
def first_valid_row (df : DataFrame) : Option Nat :=
  findIdxFrom (rowHasValue df) 0 df.index.length

/-- `df.first_valid_index()`: the label of the first row with any non-NA cell. -/
def first_valid_index (df : DataFrame) : Option ℚ :=
  (first_valid_row df).bind (fun i => df.index.get? i)

/-- `df.set_index(df.index - df.first_valid_index(), inplace=True)`.  (Pandas
raises when `first_valid_index()` is `None`; that branch is unreachable from
`load_df`, which only shifts non-empty frames, and is modelled as a no-op.) -/
def DataFrame.shiftIndex (df : DataFrame) : DataFrame :=
  match first_valid_index df with
  | none => df
  | some m => { df with index := df.index.map (fun x => x - m) }

/-- `df.empty`: no rows or no columns. -/
def DataFrame.isEmpty (df : DataFrame) : Bool :=
  df.index.isEmpty || df.cols.isEmpty

/-- The failures `load_df` can raise: an engine error propagated out of
`self[name]`, or pandas' `ValueError` for overlapping column names in `join`. -/
inductive LoadDfErr where
  | engineErr (e : ThermiteError)
  | columnsOverlap (names : List String)
deriving DecidableEq

/-- The `for name in names` loop of `Thermite.load_df`: fetch each signal via
`self[name]` (threading the handle's cache) and outer-join the non-empty ones
onto the accumulated frame. -/
def load_df_go (t : Thermite) (names : List String) (df : DataFrame) :
    Except LoadDfErr (DataFrame × Thermite) :=
  match names with
  | [] => Except.ok (df, t)
  | name :: rest =>
    match getitem t name with
    | (Except.error e, _, _) => Except.error (LoadDfErr.engineErr e)
    | (Except.ok raw, t', _) =>
      if raw.length > 0 then
        match df.join (local_df name raw) with
        | Except.error ov => Except.error (LoadDfErr.columnsOverlap ov)
        | Except.ok df' => load_df_go t' rest df'
      else
        load_df_go t' rest df

/-- `Thermite.load_df`: build the outer-joined frame, return it unchanged when
empty, otherwise apply the relative-timestamp shift and then forward-fill,
each under its toggle. -/
def load_df (t : Thermite) (names : List String)
    (ffill relative_timestamp : Bool) :
    Except LoadDfErr (DataFrame × Thermite) :=
  match load_df_go t names DataFrame.empty with
  | Except.error e => Except.error e
  | Except.ok (df, t') =>
    if df.isEmpty then
      Except.ok (df, t')
    else
      let df1 := if relative_timestamp then df.shiftIndex else df
      let df2 := if ffill then df1.ffill else df1
      Except.ok (df2, t')

/-- `Thermite.__contains__`. -/
def Thermite.contains (t : Thermite) (name : String) : Bool :=
  t.headers.contains name

/-- Concrete engine for tests: two signals, `A` with samples at 0 s and 2 s,
`B` with one sample at 1 s. -/
def engAB : Engine :=
  { header_count := 2
    headers_ret := 0
    header_names := ["A", "B"]
    data_count := fun n => if n = "A" then 2 else if n = "B" then 1 else 0
    data_ret := fun _ => 0
    data_buf := fun n =>
      if n = "A" then [⟨0, 1⟩, ⟨2000000, 2⟩]
      else if n = "B" then [⟨1000000, 9⟩]
      else [] }

/-- A freshly constructed handle over `engAB`. -/
def tAB : Thermite := { engine := engAB, headers := ["A", "B"], data := [] }

/-- Engine whose header-count query succeeds (2) but whose header-populate
call fails with code -5. -/
def engPopulateFail : Engine :=
  { header_count := 2
    headers_ret := -5
    header_names := ["A", "B"]
    data_count := fun _ => 0
    data_ret := fun _ => 0
    data_buf := fun _ => [] }

/-- Engine whose header-count query itself fails with code -7. -/
def engCountFail : Engine :=
  { header_count := -7
    headers_ret := 0
    header_names := []
    data_count := fun _ => 0
    data_ret := fun _ => 0
    data_buf := fun _ => [] }

/-- Engine with a known signal `A` whose data-count query fails with code -3. -/
def engDataFail : Engine :=
  { header_count := 1
    headers_ret := 0
    header_names := ["A"]
    data_count := fun _ => -3
    data_ret := fun _ => 0
    data_buf := fun _ => [] }

/-- A freshly constructed handle over `engDataFail`. -/
def tDataFail : Thermite :=
  { engine := engDataFail, headers := ["A"], data := [] }

theorem lookup_append_some {β : Type} (a : String) {l₁ : List (String × β)}
    (l₂ : List (String × β)) {w : β} (h : l₁.lookup a = some w) :
    (l₁ ++ l₂).lookup a = some w := by
  induction l₁ with
  | nil => simp [List.lookup] at h
  | cons p l ih =>
    cases p with
    | mk k v =>
      simp only [List.cons_append, List.lookup] at h ⊢
      cases hk : (a == k) with
      | true => simpa [hk] using h
      | false =>
        rw [hk] at h
        simpa [hk] using ih h

theorem lookup_append_none {β : Type} (a : String) {l₁ : List (String × β)}
    (l₂ : List (String × β)) (h : l₁.lookup a = none) :
    (l₁ ++ l₂).lookup a = l₂.lookup a := by
  induction l₁ with
  | nil => rfl
  | cons p l ih =>
    cases p with
    | mk k v =>
      simp only [List.cons_append, List.lookup] at h ⊢
      cases hk : (a == k) with
      | true => simp [hk] at h
      | false =>
        rw [hk] at h
        simpa [hk] using ih h

theorem getitem_unknown (t : Thermite) (name : String) (h : name ∉ t.headers) :
    getitem t name = (Except.ok [], t, 0) := by
  simp [getitem, h]

theorem getitem_hit (t : Thermite) (name : String) (v : List Sample)
    (h1 : name ∈ t.headers) (h2 : t.data.lookup name = some v) :
    getitem t name = (Except.ok v, t, 0) := by
  simp [getitem, h1, h2]

theorem getitem_fresh (t : Thermite) (name : String)
    (h1 : name ∈ t.headers) (h2 : t.data.lookup name = none)
    (h3 : 0 ≤ t.engine.data_count name) (h4 : 0 ≤ t.engine.data_ret name) :
    getitem t name =
      (Except.ok ((t.engine.data_buf name).map (fun d => (d.timestamp, d.value))),
       { t with data := t.data ++
          [(name, (t.engine.data_buf name).map (fun d => (d.timestamp, d.value)))] },
       2) := by
  have h3' : ¬ t.engine.data_count name < 0 := not_lt.2 h3
  have h4' : ¬ t.engine.data_ret name < 0 := not_lt.2 h4
  simp [getitem, h1, h2, h3', h4']

theorem getitem_err_count (t : Thermite) (name : String)
    (h1 : name ∈ t.headers) (h2 : t.data.lookup name = none)
    (h3 : t.engine.data_count name < 0) :
    getitem t name =
      (Except.error (ThermiteError.loadSignal name (t.engine.data_count name)), t, 1) := by
  simp [getitem, h1, h2, h3]

theorem getitem_err_data (t : Thermite) (name : String)
    (h1 : name ∈ t.headers) (h2 : t.data.lookup name = none)
    (h3 : ¬ t.engine.data_count name < 0) (h4 : t.engine.data_ret name < 0) :
    getitem t name =
      (Except.error (ThermiteError.loadSignal name (t.engine.data_ret name)), t, 2) := by
  simp [getitem, h1, h2, h3, h4]

theorem getitem_engine_headers (t : Thermite) (m : String) :
    ((getitem t m).2.1).engine = t.engine ∧ ((getitem t m).2.1).headers = t.headers := by
  by_cases h1 : m ∈ t.headers
  · cases h2 : t.data.lookup m with
    | some v => rw [getitem_hit t m v h1 h2]; exact ⟨rfl, rfl⟩
    | none =>
      by_cases h3 : t.engine.data_count m < 0
      · rw [getitem_err_count t m h1 h2 h3]; exact ⟨rfl, rfl⟩
      · by_cases h4 : t.engine.data_ret m < 0
        · rw [getitem_err_data t m h1 h2 h3 h4]; exact ⟨rfl, rfl⟩
        · rw [getitem_fresh t m h1 h2 (not_lt.1 h3) (not_lt.1 h4)]; exact ⟨rfl, rfl⟩
  · rw [getitem_unknown t m h1]; exact ⟨rfl, rfl⟩

theorem getitem_data_shape (t : Thermite) (m : String) :
    ((getitem t m).2.1).data = t.data ∨
    ∃ w, t.data.lookup m = none ∧ ((getitem t m).2.1).data = t.data ++ [(m, w)] := by
  by_cases h1 : m ∈ t.headers
  · cases h2 : t.data.lookup m with
    | some v => rw [getitem_hit t m v h1 h2]; exact Or.inl rfl
    | none =>
      by_cases h3 : t.engine.data_count m < 0
      · rw [getitem_err_count t m h1 h2 h3]; exact Or.inl rfl
      · by_cases h4 : t.engine.data_ret m < 0
        · rw [getitem_err_data t m h1 h2 h3 h4]; exact Or.inl rfl
        · rw [getitem_fresh t m h1 h2 (not_lt.1 h3) (not_lt.1 h4)]
          exact Or.inr ⟨_, rfl, rfl⟩
  · rw [getitem_unknown t m h1]; exact Or.inl rfl

theorem getitem_lookup_preserved (t : Thermite) (m a : String) (hne : a ≠ m) :
    ((getitem t m).2.1).data.lookup a = t.data.lookup a := by
  rcases getitem_data_shape t m with h | ⟨w, _, h⟩
  · rw [h]
  · rw [h]
    cases ha : t.data.lookup a with
    | some v => exact lookup_append_some a _ ha
    | none =>
      rw [lookup_append_none a _ ha]
      have hb : (a == m) = false := beq_eq_false_iff_ne.mpr hne
      simp [List.lookup, hb]

theorem getitem_ok_cached (t : Thermite) (m : String) (v : List Sample)
    (t' : Thermite) (k : Nat) (hmem : m ∈ t.headers)
    (h : getitem t m = (Except.ok v, t', k)) :
    t'.data.lookup m = some v := by
  cases h2 : t.data.lookup m with
  | some w =>
    rw [getitem_hit t m w hmem h2] at h
    injection h with h_res h_rest
    injection h_rest with h_t h_k
    injection h_res with hv
    rw [← h_t, h2, hv]
  | none =>
    by_cases h3 : t.engine.data_count m < 0
    · rw [getitem_err_count t m hmem h2 h3] at h
      injection h with h_res h_rest
      exact absurd h_res (by simp)
    · by_cases h4 : t.engine.data_ret m < 0
      · rw [getitem_err_data t m hmem h2 h3 h4] at h
        injection h with h_res h_rest
        exact absurd h_res (by simp)
      · rw [getitem_fresh t m hmem h2 (not_lt.1 h3) (not_lt.1 h4)] at h
        injection h with h_res h_rest
        injection h_rest with h_t h_k
        injection h_res with hv
        rw [← h_t]
        show List.lookup m
          (t.data ++ [(m, (t.engine.data_buf m).map (fun d => (d.timestamp, d.value)))]) =
          some v
        rw [lookup_append_none m _ h2]
        simp [List.lookup, hv]

theorem getitem_calls_pos (t : Thermite) (name : String)
    (h1 : name ∈ t.headers) (h2 : t.data.lookup name = none) :
    1 ≤ (getitem t name).2.2 := by
  by_cases h3 : t.engine.data_count name < 0
  · rw [getitem_err_count t name h1 h2 h3]
  · by_cases h4 : t.engine.data_ret name < 0
    · rw [getitem_err_data t name h1 h2 h3 h4]
      exact Nat.le.step Nat.le.refl
    · rw [getitem_fresh t name h1 h2 (not_lt.1 h3) (not_lt.1 h4)]
      exact Nat.le.step Nat.le.refl

/-- C3: the claim says a negative return code from the header-populate call
yields an error carrying that negative code, distinguishable from a
count-query failure.  The code instead interpolates `header_count` into the
second raise (`thermite.py` line 49), so the populate failure carries the
non-negative header count (here 2, not -5) and has exactly the same message
shape as a count failure.  This theorem evaluates both failure sites. -/
theorem c3_populate_error_code :
    engPopulateFail.header_count = 2 ∧
    engPopulateFail.headers_ret = -5 ∧
    load_headers engPopulateFail = Except.error (ThermiteError.loadFile 2) ∧
    load_headers engCountFail = Except.error (ThermiteError.loadFile (-7)) :=
  ⟨rfl, rfl, rfl, rfl⟩

theorem local_df_A_eval :
    local_df "A" [((0 : Int), (1 : ℚ)), (2000000, 2)] =
      ⟨[0, 2], [("A", [some 1, some 2])]⟩ := by
  simp only [local_df, List.map_cons, List.map_nil, DataFrame.mk.injEq]
  norm_num

theorem local_df_B_eval :
    local_df "B" [((1000000 : Int), (9 : ℚ))] = ⟨[1], [("B", [some 9])]⟩ := by
  simp only [local_df, List.map_cons, List.map_nil, DataFrame.mk.injEq]
  norm_num

theorem go_AB_eval :
    load_df_go tAB ["A", "B"] DataFrame.empty =
      Except.ok
        (⟨[0, 1, 2],
          [("A", [some 1, none, some 2]), ("B", [none, some 9, none])]⟩,
         { engine := engAB, headers := ["A", "B"],
           data := [("A", [((0 : Int), (1 : ℚ)), (2000000, 2)]),
                    ("B", [((1000000 : Int), (9 : ℚ))])] }) := by
  have e1 : getitem tAB "A" =
      (Except.ok [((0 : Int), (1 : ℚ)), (2000000, 2)],
       { engine := engAB, headers := ["A", "B"],
         data := [("A", [((0 : Int), (1 : ℚ)), (2000000, 2)])] }, 2) := rfl
  have e2 : getitem
      { engine := engAB, headers := ["A", "B"],
        data := [("A", [((0 : Int), (1 : ℚ)), (2000000, 2)])] } "B" =
      (Except.ok [((1000000 : Int), (9 : ℚ))],
       { engine := engAB, headers := ["A", "B"],
         data := [("A", [((0 : Int), (1 : ℚ)), (2000000, 2)]),
                  ("B", [((1000000 : Int), (9 : ℚ))])] }, 2) := rfl
  have j1 : DataFrame.empty.join (local_df "A" [((0 : Int), (1 : ℚ)), (2000000, 2)]) =
      Except.ok ⟨[0, 2], [("A", [some 1, some 2])]⟩ := by
    rw [local_df_A_eval]
    rfl
  have j2 : DataFrame.join ⟨[0, 2], [("A", [some 1, some 2])]⟩
      (local_df "B" [((1000000 : Int), (9 : ℚ))]) =
      Except.ok
        ⟨[0, 1, 2], [("A", [some 1, none, some 2]), ("B", [none, some 9, none])]⟩ := by
    rw [local_df_B_eval]
    rfl
  simp only [load_df_go, e1, j1, e2, j2, List.length_cons, List.length_nil]
  rfl

/-- C7: outer-join correctness on the concrete two-signal engine: signal `A`
has samples at 0 s and 2 s with values 1 and 2, signal `B` one sample at 1 s
with value 9; `load_df ["A","B"] ffill=false relative_timestamp=false` yields
rows at seconds 0, 1, 2 with column `A` = 1, missing, 2 and column `B` =
missing, 9, missing (and caches both signals on the handle). -/
theorem c7_outer_join :
    load_df tAB ["A", "B"] false false =
      Except.ok
        (⟨[0, 1, 2],
          [("A", [some 1, none, some 2]), ("B", [none, some 9, none])]⟩,
         { engine := engAB, headers := ["A", "B"],
           data := [("A", [((0 : Int), (1 : ℚ)), (2000000, 2)]),
                    ("B", [((1000000 : Int), (9 : ℚ))])] }) := by
  simp only [load_df, go_AB_eval]
  rfl

/-- C1 counterexample: requesting the same header-present, non-empty name
twice does not produce a table with two identical columns; the second
`df.join` sees the overlapping column name and `load_df` fails with pandas'
overlap error. -/
theorem c1_counterexample :
    load_df tAB ["A", "A"] false false =
      Except.error (LoadDfErr.columnsOverlap ["A"]) := rfl

/-- C2 counterexample: fetching the unknown name `x` on a fresh handle over
`engAB` returns the empty sequence with zero engine data calls, but stores
nothing: the post-call cache has no entry keyed `x` (it is empty), contrary
to the claim that the empty result is cached. -/
theorem c2_counterexample :
    (getitem tAB "x").1 = Except.ok [] ∧
    (getitem tAB "x").2.2 = 0 ∧
    ((getitem tAB "x").2.1).data.lookup "x" = none ∧
    ((getitem tAB "x").2.1).data = [] :=
  ⟨rfl, rfl, rfl, rfl⟩

/-- C2 (amended): fetching a name absent from the header catalog returns the
empty sequence, performs no engine data call, and leaves the handle state
(including the cache) unchanged — the empty result is NOT stored; a second
fetch of the same name again returns empty with no engine call, served by the
header-membership check rather than the cache. -/
theorem c2_unknown_name (t : Thermite) (name : String) (h : name ∉ t.headers) :
    getitem t name = (Except.ok [], t, 0) ∧
    getitem ((getitem t name).2.1) name = (Except.ok [], t, 0) := by
  have h1 : getitem t name = (Except.ok [], t, 0) := getitem_unknown t name h
  exact ⟨h1, by rw [h1]; exact h1⟩

/-- Witness for C2's amended theorem at the unknown name `x` over `engAB`. -/
theorem c2_unknown_name_witness :
    getitem tAB "x" = (Except.ok [], tAB, 0) ∧
    getitem ((getitem tAB "x").2.1) "x" = (Except.ok [], tAB, 0) :=
  c2_unknown_name tAB "x" (by decide)

/-- C4: for a known signal (not yet cached) whose engine read succeeds, the
fetched sequence is exactly the engine's raw buffer mapped sample-by-sample:
same length, and at every position the pair (raw int64 timestamp, raw value)
verbatim — no unit conversion, no re-sorting, no deduplication. -/
theorem c4_verbatim (t : Thermite) (name : String)
    (h1 : name ∈ t.headers) (h2 : t.data.lookup name = none)
    (h3 : 0 ≤ t.engine.data_count name) (h4 : 0 ≤ t.engine.data_ret name) :
    (∃ t' n, getitem t name =
      (Except.ok ((t.engine.data_buf name).map (fun d => (d.timestamp, d.value))),
       t', n)) ∧
    ((t.engine.data_buf name).map (fun d => (d.timestamp, d.value))).length =
      (t.engine.data_buf name).length ∧
    ∀ (i : Nat), ((t.engine.data_buf name).map (fun d => (d.timestamp, d.value)))[i]? =
      ((t.engine.data_buf name)[i]?).map (fun (d : Datapoint) => (d.timestamp, d.value)) := by
  refine ⟨⟨_, _, getitem_fresh t name h1 h2 h3 h4⟩, List.length_map _ _, fun i => ?_⟩
  exact List.getElem?_map _ _ _

/-- Witness for C4 at signal `A` of the fresh handle `tAB`. -/
theorem c4_verbatim_witness :
    (∃ t' n, getitem tAB "A" =
      (Except.ok ((tAB.engine.data_buf "A").map (fun d => (d.timestamp, d.value))),
       t', n)) ∧
    ((tAB.engine.data_buf "A").map (fun d => (d.timestamp, d.value))).length =
      (tAB.engine.data_buf "A").length ∧
    ∀ (i : Nat), ((tAB.engine.data_buf "A").map (fun d => (d.timestamp, d.value)))[i]? =
      ((tAB.engine.data_buf "A")[i]?).map (fun (d : Datapoint) => (d.timestamp, d.value)) :=
  c4_verbatim tAB "A" (by decide) rfl (by decide) (by decide)

/-- C6: when a fetch of a signal fails (the engine data-count or data call
returned a negative code), the raised error names that signal and carries the
negative code, and the handle state — in particular the whole cache — is
exactly the pre-call state: no entry added, no entry removed or altered. -/
theorem c6_error_cache_unchanged (t : Thermite) (name : String)
    (e : ThermiteError) (t' : Thermite) (n : Nat)
    (h : getitem t name = (Except.error e, t', n)) :
    t' = t ∧ ∃ c, c < 0 ∧ e = ThermiteError.loadSignal name c ∧
      (c = t.engine.data_count name ∨ c = t.engine.data_ret name) := by
  by_cases h1 : name ∈ t.headers
  · cases h2 : t.data.lookup name with
    | some v =>
      rw [getitem_hit t name v h1 h2] at h
      injection h with h_res h_rest
      exact absurd h_res (by simp)
    | none =>
      by_cases h3 : t.engine.data_count name < 0
      · rw [getitem_err_count t name h1 h2 h3] at h
        injection h with h_res h_rest
        injection h_rest with h_t h_n
        injection h_res with h_e
        exact ⟨h_t.symm, t.engine.data_count name, h3, h_e.symm, Or.inl rfl⟩
      · by_cases h4 : t.engine.data_ret name < 0
        · rw [getitem_err_data t name h1 h2 h3 h4] at h
          injection h with h_res h_rest
          injection h_rest with h_t h_n
          injection h_res with h_e
          exact ⟨h_t.symm, t.engine.data_ret name, h4, h_e.symm, Or.inr rfl⟩
        · rw [getitem_fresh t name h1 h2 (not_lt.1 h3) (not_lt.1 h4)] at h
          injection h with h_res h_rest
          exact absurd h_res (by simp)
  · rw [getitem_unknown t name h1] at h
    injection h with h_res h_rest
    exact absurd h_res (by simp)

/-- Witness for C6 on the handle whose engine fails the data-count query for
the known signal `A` with code -3. -/
theorem c6_witness :
    tDataFail = tDataFail ∧ ∃ c, c < 0 ∧
      ThermiteError.loadSignal "A" (-3) = ThermiteError.loadSignal "A" c ∧
      (c = tDataFail.engine.data_count "A" ∨ c = tDataFail.engine.data_ret "A") :=
  c6_error_cache_unchanged tDataFail "A" (ThermiteError.loadSignal "A" (-3))
    tDataFail 1 rfl

/-- C5: a successful fetch followed by a second fetch of the same name with
no intervening `clear_cache` returns the identical sequence and state and
performs zero engine data calls the second time (so the engine is queried at
most once per name); and after `clear_cache`, fetching a previously known
(hence now cached) name performs at least one engine data call again. -/
theorem c5_cache_idempotent (t : Thermite) (name : String)
    (v : List Sample) (t' : Thermite) (n : Nat)
    (h : getitem t name = (Except.ok v, t', n)) :
    getitem t' name = (Except.ok v, t', 0) ∧
    (name ∈ t.headers → 1 ≤ (getitem (clear_cache t') name).2.2) := by
  by_cases h1 : name ∈ t.headers
  · have hcache : t'.data.lookup name = some v := getitem_ok_cached t name v t' n h1 h
    have hheq : t'.headers = t.headers := by
      have hp := (getitem_engine_headers t name).2
      rw [h] at hp
      exact hp
    have h1' : name ∈ t'.headers := by rw [hheq]; exact h1
    refine ⟨getitem_hit t' name v h1' hcache, fun _ => ?_⟩
    exact getitem_calls_pos (clear_cache t') name h1' rfl
  · rw [getitem_unknown t name h1] at h
    injection h with h_res h_rest
    injection h_rest with h_t h_n
    injection h_res with h_v
    subst h_t
    rw [← h_v]
    exact ⟨getitem_unknown t name h1, fun hmem => absurd hmem h1⟩

/-- Witness for C5: first fetch of `A` on the fresh `tAB` handle (two engine
calls), instantiating the idempotence and invalidation conclusions. -/
theorem c5_witness :
    getitem { engine := engAB, headers := ["A", "B"], data := [("A", [((0 : Int), (1 : ℚ)), (2000000, 2)])] } "A" =
      (Except.ok [((0 : Int), (1 : ℚ)), (2000000, 2)],
       { engine := engAB, headers := ["A", "B"], data := [("A", [((0 : Int), (1 : ℚ)), (2000000, 2)])] }, 0) ∧
    ("A" ∈ tAB.headers →
      1 ≤ (getitem
        (clear_cache { engine := engAB, headers := ["A", "B"], data := [("A", [((0 : Int), (1 : ℚ)), (2000000, 2)])] })
        "A").2.2) :=
  c5_cache_idempotent tAB "A" [((0 : Int), (1 : ℚ)), (2000000, 2)]
    { engine := engAB, headers := ["A", "B"], data := [("A", [((0 : Int), (1 : ℚ)), (2000000, 2)])] } 2 rfl

/-- C9: a successfully constructed handle enumerates (`signals()`) exactly
the names the engine's header-populate call delivered, in delivery order —
not sorted, reversed, or otherwise permuted. -/
theorem c9_header_order (e : Engine) (t : Thermite)
    (h : Thermite.new e = Except.ok t) :
    Thermite.signals t = e.header_names ∧ t.headers = e.header_names := by
  unfold Thermite.new at h
  cases hl : load_headers e with
  | error err => rw [hl] at h; exact absurd h (by simp)
  | ok hs =>
    rw [hl] at h
    simp only [Except.ok.injEq] at h
    have hhs : hs = e.header_names := by
      unfold load_headers at hl
      by_cases hc : e.header_count < 0
      · simp [hc] at hl
      · by_cases hr : e.headers_ret < 0
        · simp [hc, hr] at hl
        · simp [hc, hr] at hl
          exact hl.symm
    rw [← h, hhs]
    exact ⟨rfl, rfl⟩

/-- Witness for C9 at the concrete engine `engAB`. -/
theorem c9_header_order_witness :
    Thermite.signals tAB = engAB.header_names ∧ tAB.headers = engAB.header_names :=
  c9_header_order engAB tAB rfl

theorem join_ok_colNames (l r d : DataFrame) (h : l.join r = Except.ok d) :
    d.colNames = l.colNames ++ r.colNames := by
  by_cases hov : (r.colNames.filter (fun n => l.colNames.contains n)).isEmpty
  · simp only [DataFrame.join, hov, if_true] at h
    injection h with hd
    rw [← hd]
    simp only [DataFrame.colNames, List.map_append, List.map_map]
    rfl
  · simp only [DataFrame.join, hov, if_false] at h
    exact absurd h (by simp)

theorem join_dup_overlap (df : DataFrame) (name : String) (raw : List Sample)
    (h : name ∈ df.colNames) :
    df.join (local_df name raw) = Except.error [name] := by
  have hc : df.colNames.contains name = true := List.elem_iff.mpr h
  have hfil : List.filter (fun n => df.colNames.contains n)
      ((local_df name raw).colNames) = [name] := by
    show List.filter (fun n => df.colNames.contains n) [name] = [name]
    simp only [List.filter_cons, List.filter_nil, hc]
    rfl
  unfold DataFrame.join
  rw [hfil]
  rfl

/-- The handle's cache is cold for `name`, or holds a non-empty sequence. -/
def goodCacheAt (t : Thermite) (name : String) : Prop :=
  t.data.lookup name = none ∨ ∃ w, t.data.lookup name = some w ∧ w ≠ []

theorem go_dup_errors (name : String) (names : List String) :
    ∀ (t : Thermite) (df : DataFrame),
      name ∈ t.headers →
      0 ≤ t.engine.data_count name →
      0 ≤ t.engine.data_ret name →
      t.engine.data_buf name ≠ [] →
      goodCacheAt t name →
      2 ≤ names.count name + (if name ∈ df.colNames then 1 else 0) →
      ∃ e, load_df_go t names df = Except.error e := by
  induction names with
  | nil =>
    intro t df _ _ _ _ _ hcnt
    exfalso
    simp [List.count_nil] at hcnt
    split at hcnt <;> omega
  | cons m rest ih =>
    intro t df hmem hdc hdr hbuf hcache hcnt
    rcases hg : getitem t m with ⟨res, t', k⟩
    cases res with
    | error e =>
      exact ⟨LoadDfErr.engineErr e, by simp [load_df_go, hg]⟩
    | ok raw =>
      have hengine : t'.engine = t.engine := by
        have hp := (getitem_engine_headers t m).1
        rw [hg] at hp
        exact hp
      have hheaders : t'.headers = t.headers := by
        have hp := (getitem_engine_headers t m).2
        rw [hg] at hp
        exact hp
      by_cases hm : m = name
      · subst hm
        have hlook : t'.data.lookup m = some raw := getitem_ok_cached t m raw t' k hmem hg
        have hraw : raw ≠ [] := by
          rcases hcache with hnone | ⟨w, hsome, hw⟩
          · rw [getitem_fresh t m hmem hnone hdc hdr] at hg
            injection hg with h_res h_rest
            injection h_res with h_raw
            rw [← h_raw]
            simpa using hbuf
          · rw [getitem_hit t m w hmem hsome] at hg
            injection hg with h_res h_rest
            injection h_res with h_raw
            rw [← h_raw]
            exact hw
        have hlen : raw.length > 0 := List.length_pos.2 hraw
        by_cases hcol : m ∈ df.colNames
        · exact ⟨LoadDfErr.columnsOverlap [m],
            by simp [load_df_go, hg, hlen, join_dup_overlap df m raw hcol]⟩
        · cases hj : df.join (local_df m raw) with
          | error ov =>
            exact ⟨LoadDfErr.columnsOverlap ov, by simp [load_df_go, hg, hlen, hj]⟩
          | ok df' =>
            have hcols : df'.colNames = df.colNames ++ [m] := by
              have hjc := join_ok_colNames df (local_df m raw) df' hj
              simpa [local_df, DataFrame.colNames] using hjc
            have hcnt1 : 1 ≤ rest.count m := by
              rw [if_neg hcol, List.count_cons_self] at hcnt
              omega
            obtain ⟨e, he⟩ := ih t' df' (by rw [hheaders]; exact hmem)
              (by rw [hengine]; exact hdc) (by rw [hengine]; exact hdr)
              (by rw [hengine]; exact hbuf) (Or.inr ⟨raw, hlook, hraw⟩)
              (by
                rw [if_pos (by rw [hcols]; exact List.mem_append_right _ (List.mem_singleton.mpr rfl))]
                omega)
            exact ⟨e, by simp [load_df_go, hg, hlen, hj, he]⟩
      · have hlookpre : t'.data.lookup name = t.data.lookup name := by
          have hp := getitem_lookup_preserved t m name (fun h => hm h.symm)
          rw [hg] at hp
          exact hp
        have hcache' : goodCacheAt t' name := by
          unfold goodCacheAt at hcache ⊢
          rw [hlookpre]
          exact hcache
        have hcnt_cons : (m :: rest).count name = rest.count name := by
          have hnm : ¬ (name = m) := fun h => hm h.symm
          simp [List.count_cons, hnm]
        by_cases hlen : raw.length > 0
        · cases hj : df.join (local_df m raw) with
          | error ov =>
            exact ⟨LoadDfErr.columnsOverlap ov, by simp [load_df_go, hg, hlen, hj]⟩
          | ok df' =>
            have hcols : df'.colNames = df.colNames ++ [m] := by
              have hjc := join_ok_colNames df (local_df m raw) df' hj
              simpa [local_df, DataFrame.colNames] using hjc
            have hind : (name ∈ df'.colNames) ↔ (name ∈ df.colNames) := by
              rw [hcols]
              simp [List.mem_append]
              intro hmn
              exact absurd hmn.symm hm
            have hcnt' : 2 ≤ rest.count name + (if name ∈ df'.colNames then 1 else 0) := by
              rw [hcnt_cons] at hcnt
              by_cases hnd : name ∈ df.colNames
              · rw [if_pos hnd] at hcnt
                rw [if_pos (hind.mpr hnd)]
                omega
              · rw [if_neg hnd] at hcnt
                rw [if_neg (fun hc => hnd (hind.mp hc))]
                omega
            obtain ⟨e, he⟩ := ih t' df' (by rw [hheaders]; exact hmem)
              (by rw [hengine]; exact hdc) (by rw [hengine]; exact hdr)
              (by rw [hengine]; exact hbuf) hcache' hcnt'
            exact ⟨e, by simp [load_df_go, hg, hlen, hj, he]⟩
        · obtain ⟨e, he⟩ := ih t' df (by rw [hheaders]; exact hmem)
            (by rw [hengine]; exact hdc) (by rw [hengine]; exact hdr)
            (by rw [hengine]; exact hbuf) hcache' (by rw [hcnt_cons] at hcnt; exact hcnt)
          exact ⟨e, by simp [load_df_go, hg, hlen, he]⟩

/-- C1 (amended): requesting a header-present, non-empty signal name twice in
`names` makes `load_df` fail (pandas raises on the overlapping column name at
the second join) instead of returning a table with two identical columns. -/
theorem c1_duplicate_fails (t : Thermite) (names : List String) (name : String)
    (ff rt : Bool)
    (hmem : name ∈ t.headers)
    (hcnt : 2 ≤ names.count name)
    (hcache : t.data.lookup name = none)
    (hdc : 0 ≤ t.engine.data_count name)
    (hdr : 0 ≤ t.engine.data_ret name)
    (hbuf : t.engine.data_buf name ≠ []) :
    ∃ e, load_df t names ff rt = Except.error e := by
  obtain ⟨e, he⟩ := go_dup_errors name names t DataFrame.empty hmem hdc hdr hbuf
    (Or.inl hcache)
    (by simpa [DataFrame.empty, DataFrame.colNames] using hcnt)
  exact ⟨e, by simp [load_df, he]⟩

/-- Witness for C1's amended theorem: requesting `A` twice on the fresh `tAB`
handle fails. -/
theorem c1_duplicate_fails_witness :
    ∃ e, load_df tAB ["A", "A"] false false = Except.error e :=
  c1_duplicate_fails tAB ["A", "A"] "A" false false (by decide) (by decide) rfl
    (by decide) (by decide) (by decide)

theorem mem_sortedUnion (l r : List ℚ) (x : ℚ) :
    x ∈ sortedUnion l r ↔ x ∈ l ∨ x ∈ r := by
  unfold sortedUnion
  rw [(List.perm_insertionSort _ _).mem_iff]
  simp [List.mem_dedup, List.mem_append]

theorem sortedUnion_nodup (l r : List ℚ) : (sortedUnion l r).Nodup :=
  (List.perm_insertionSort _ _).nodup_iff.mpr (List.nodup_dedup _)

theorem sortedUnion_sorted (l r : List ℚ) :
    List.Sorted (· ≤ ·) (sortedUnion l r) :=
  List.sorted_insertionSort _ _

theorem sortedUnion_eq_nil (l r : List ℚ) (h : sortedUnion l r = []) :
    l = [] ∧ r = [] := by
  unfold sortedUnion at h
  have hd : (l ++ r).dedup = [] := by
    have hp := (List.perm_insertionSort (· ≤ ·) ((l ++ r).dedup)).symm
    rw [h] at hp
    exact hp.eq_nil
  rw [List.dedup_eq_nil] at hd
  exact List.append_eq_nil.mp hd

theorem cellAt_mem_isSome (idx : List ℚ) :
    ∀ (cells : List (Option ℚ)) (x : ℚ),
    cells.length = idx.length →
    (∀ c ∈ cells, c.isSome) → x ∈ idx →
    (cellAt idx cells x).isSome := by
  induction idx with
  | nil => intro cells x _ _ hx; cases hx
  | cons a idx ih =>
    intro cells x hlen hall hx
    cases cells with
    | nil => simp at hlen
    | cons c cs =>
      by_cases hax : a = x
      · simp [cellAt, hax]
        exact hall c (List.mem_cons_self c cs)
      · have hx' : x ∈ idx := by
          rcases List.mem_cons.mp hx with hxa | hxm
          · exact absurd hxa.symm hax
          · exact hxm
        simp only [cellAt, if_neg hax]
        exact ih cs x (by simpa using hlen)
          (fun d hd => hall d (List.mem_cons_of_mem _ hd)) hx'

theorem cellAt_nodup_get (idx : List ℚ) :
    ∀ (cells : List (Option ℚ)) (j : Nat) (x : ℚ) (cell : Option ℚ),
    idx.Nodup → idx.get? j = some x → cells.get? j = some cell →
    cellAt idx cells x = cell := by
  induction idx with
  | nil => intro cells j x cell _ hj _; simp at hj
  | cons a idx ih =>
    intro cells j x cell hnd hj hc
    cases cells with
    | nil => simp at hc
    | cons c cs =>
      cases j with
      | zero =>
        simp only [List.get?_cons_zero, Option.some.injEq] at hj hc
        rw [← hj, ← hc]
        simp [cellAt]
      | succ j =>
        simp only [List.get?_cons_succ] at hj hc
        have hax : ¬ a = x := by
          intro hax
          have hxmem : x ∈ idx := List.get?_mem hj
          rw [hax] at hnd
          exact (List.nodup_cons.mp hnd).1 hxmem
        simp only [cellAt, if_neg hax]
        exact ih cs j x cell (List.nodup_cons.mp hnd).2 hj hc

theorem ffillCol_length (cs : List (Option ℚ)) :
    ∀ (last : Option ℚ), (ffillCol last cs).length = cs.length := by
  induction cs with
  | nil => intro last; rfl
  | cons c cs ih =>
    intro last
    cases c with
    | some v => simp [ffillCol, ih]
    | none => simp [ffillCol, ih]

theorem cellSome_ffill_zero (cs : List (Option ℚ)) :
    cellSome (ffillCol none cs) 0 = cellSome cs 0 := by
  cases cs with
  | nil => rfl
  | cons c cs => cases c <;> rfl

theorem any_ffill_zero (cols : List (String × List (Option ℚ))) :
    (cols.map (fun c => (c.1, ffillCol none c.2))).any (fun c => cellSome c.2 0) =
    cols.any (fun c => cellSome c.2 0) := by
  induction cols with
  | nil => rfl
  | cons c cs ih => simp [List.any_cons, ih, cellSome_ffill_zero]

theorem rowHasValue_ffill_zero (df : DataFrame) :
    rowHasValue df.ffill 0 = rowHasValue df 0 :=
  any_ffill_zero df.cols

theorem ffill_index (df : DataFrame) : df.ffill.index = df.index := rfl

theorem shiftIndex_cols (df : DataFrame) : df.shiftIndex.cols = df.cols := by
  unfold DataFrame.shiftIndex
  cases h : first_valid_index df <;> rfl

theorem shiftIndex_some (df : DataFrame) (m : ℚ)
    (h : first_valid_index df = some m) :
    df.shiftIndex = ⟨df.index.map (fun x => x - m), df.cols⟩ := by
  simp [DataFrame.shiftIndex, h]

theorem first_valid_row_zero (df : DataFrame) (h0 : rowHasValue df 0 = true)
    (hne : df.index ≠ []) : first_valid_row df = some 0 := by
  unfold first_valid_row
  cases hidx : df.index with
  | nil => exact absurd hidx hne
  | cons a idx =>
    simp [findIdxFrom, h0]

theorem cellSome_of_get? (cells : List (Option ℚ)) (i : Nat) (v : ℚ)
    (h : cells.get? i = some (some v)) : cellSome cells i = true := by
  unfold cellSome
  rw [h]

theorem get?_of_cellSome (cells : List (Option ℚ)) (i : Nat)
    (h : cellSome cells i = true) : ∃ v, cells.get? i = some (some v) := by
  unfold cellSome at h
  rcases hg : cells.get? i with _ | c
  · rw [hg] at h
    exact absurd h (by simp)
  · rcases c with _ | v
    · rw [hg] at h
      exact absurd h (by simp)
    · exact ⟨v, rfl⟩

/-- Well-formedness invariant of the frames `load_df_go` accumulates: columns
aligned with the index, index sorted without duplicates, an empty index only
for the initial empty frame, and every row carrying at least one value. -/
def DataFrame.WF (df : DataFrame) : Prop :=
  (∀ c ∈ df.cols, c.2.length = df.index.length) ∧
  df.index.Nodup ∧
  List.Sorted (· ≤ ·) df.index ∧
  (df.index = [] → df.cols = []) ∧
  (∀ i, i < df.index.length → rowHasValue df i = true)

theorem empty_WF : DataFrame.empty.WF :=
  ⟨fun c hc => absurd hc (List.not_mem_nil c),
   List.nodup_nil, List.sorted_nil, fun _ => rfl,
   fun i hi => absurd hi (Nat.not_lt_zero i)⟩

theorem join_WF_general (l r d : DataFrame) (hl : l.WF)
    (hrlen : ∀ c ∈ r.cols, c.2.length = r.index.length)
    (hrsome : ∀ c ∈ r.cols, ∀ cell ∈ c.2, cell.isSome)
    (hrne : r.index ≠ []) (hrcolsne : r.cols ≠ [])
    (h : l.join r = Except.ok d) : d.WF := by
  obtain ⟨hlen, hnd, hsort, _, hval⟩ := hl
  by_cases hov : (r.colNames.filter (fun n => l.colNames.contains n)).isEmpty = true
  · simp only [DataFrame.join, hov, if_true] at h
    injection h with hd
    subst hd
    refine ⟨?_, sortedUnion_nodup _ _, sortedUnion_sorted _ _, ?_, ?_⟩
    · intro c hc
      rcases List.mem_append.mp hc with hcl | hcr
      · rcases List.mem_map.mp hcl with ⟨c₀, _, hc₀⟩
        rw [← hc₀]
        simp [reindexCol]
      · rcases List.mem_map.mp hcr with ⟨c₀, _, hc₀⟩
        rw [← hc₀]
        simp [reindexCol]
    · intro hu
      exact absurd (sortedUnion_eq_nil _ _ hu).2 hrne
    · intro i hi
      have hi' : i < (sortedUnion l.index r.index).length := hi
      have hx : (sortedUnion l.index r.index).get? i =
          some ((sortedUnion l.index r.index).get ⟨i, hi'⟩) :=
        List.get?_eq_get hi'
      have hxmem := List.get_mem (sortedUnion l.index r.index) i hi'
      rcases (mem_sortedUnion _ _ _).mp hxmem with hxl | hxr
      · rcases List.get?_of_mem hxl with ⟨j, hj⟩
        have hjlt : j < l.index.length := List.get?_eq_some.mp hj |>.choose
        have hrow := hval j hjlt
        rcases List.any_eq_true.mp hrow with ⟨c₀, hc₀, hcs⟩
        rcases get?_of_cellSome _ _ hcs with ⟨v, hv⟩
        have hcell : cellAt l.index c₀.2 ((sortedUnion l.index r.index).get ⟨i, hi'⟩) =
            some v :=
          cellAt_nodup_get l.index c₀.2 j _ (some v) hnd hj hv
        refine List.any_eq_true.mpr
          ⟨(c₀.1, reindexCol l.index c₀.2 (sortedUnion l.index r.index)), ?_, ?_⟩
        · exact List.mem_append_left _ (List.mem_map.mpr ⟨c₀, hc₀, rfl⟩)
        · refine cellSome_of_get? _ i v ?_
          show (List.map (cellAt l.index c₀.2) (sortedUnion l.index r.index)).get? i =
            some (some v)
          rw [List.get?_map, hx]
          simp only [Option.map_some']
          rw [hcell]
      · rcases List.exists_mem_of_ne_nil r.cols hrcolsne with ⟨c₀, hc₀⟩
        have hsome : (cellAt r.index c₀.2
            ((sortedUnion l.index r.index).get ⟨i, hi'⟩)).isSome :=
          cellAt_mem_isSome r.index c₀.2 _ (hrlen c₀ hc₀)
            (fun cell hcell => hrsome c₀ hc₀ cell hcell) hxr
        rcases Option.isSome_iff_exists.mp hsome with ⟨v, hv⟩
        refine List.any_eq_true.mpr
          ⟨(c₀.1, reindexCol r.index c₀.2 (sortedUnion l.index r.index)), ?_, ?_⟩
        · exact List.mem_append_right _ (List.mem_map.mpr ⟨c₀, hc₀, rfl⟩)
        · refine cellSome_of_get? _ i v ?_
          show (List.map (cellAt r.index c₀.2) (sortedUnion l.index r.index)).get? i =
            some (some v)
          rw [List.get?_map, hx]
          simp only [Option.map_some']
          rw [hv]
  · simp only [DataFrame.join, if_neg hov] at h
    exact absurd h (by simp)

theorem join_WF (l : DataFrame) (name : String) (raw : List Sample)
    (d : DataFrame) (hl : l.WF) (hraw : raw ≠ [])
    (h : l.join (local_df name raw) = Except.ok d) : d.WF := by
  refine join_WF_general l (local_df name raw) d hl ?_ ?_ ?_ ?_ h
  · intro c hc
    rcases List.mem_cons.mp hc with hc1 | hc1
    · rw [hc1]
      simp [local_df]
    · exact absurd hc1 (List.not_mem_nil c)
  · intro c hc cell hcell
    rcases List.mem_cons.mp hc with hc1 | hc1
    · rw [hc1] at hcell
      rcases List.mem_map.mp hcell with ⟨s, _, hs⟩
      rw [← hs]
      rfl
    · exact absurd hc1 (List.not_mem_nil c)
  · simp [local_df, hraw]
  · simp [local_df]

theorem load_df_go_WF (names : List String) :
    ∀ (t : Thermite) (df d : DataFrame) (t' : Thermite),
      df.WF → load_df_go t names df = Except.ok (d, t') → d.WF := by
  induction names with
  | nil =>
    intro t df d t' hwf h
    simp only [load_df_go] at h
    injection h with hp
    injection hp with hd ht
    rw [← hd]
    exact hwf
  | cons m rest ih =>
    intro t df d t' hwf h
    rcases hg : getitem t m with ⟨res, t1, k⟩
    cases res with
    | error e => simp [load_df_go, hg] at h
    | ok raw =>
      simp only [load_df_go, hg] at h
      by_cases hlen : raw.length > 0
      · rw [if_pos hlen] at h
        cases hj : df.join (local_df m raw) with
        | error ov => rw [hj] at h; exact absurd h (by simp)
        | ok df' =>
          rw [hj] at h
          exact ih t1 df' d t'
            (join_WF df m raw df' hwf (List.length_pos.mp hlen) hj) h
      · rw [if_neg hlen] at h
        exact ih t1 df d t' hwf h

/-- C8: with both toggles enabled, `load_df` equals the outer-union merged
frame with the relative-time shift applied first and forward-fill second; and
the two steps commute on the merged frame (shift only relabels the index,
fill only rewrites cells, and filling cannot move the first valid row). -/
theorem c8_toggles (t : Thermite) (names : List String) (merged : DataFrame)
    (t' : Thermite)
    (h : load_df_go t names DataFrame.empty = Except.ok (merged, t')) :
    load_df t names true true = Except.ok (merged.shiftIndex.ffill, t') ∧
    merged.shiftIndex.ffill = merged.ffill.shiftIndex := by
  have hwf : merged.WF :=
    load_df_go_WF names t DataFrame.empty merged t' empty_WF h
  by_cases hne : merged.index = []
  · have hcols : merged.cols = [] := hwf.2.2.2.1 hne
    have hmerged : merged = DataFrame.empty := by
      cases merged with
      | mk idx cols =>
        simp only at hne hcols
        rw [hne, hcols]
        rfl
    rw [hmerged] at h ⊢
    constructor
    · simp only [load_df, h]
      rfl
    · rfl
  · obtain ⟨a, idx, hidx⟩ : ∃ a idx, merged.index = a :: idx := by
      cases hidx : merged.index with
      | nil => exact absurd hidx hne
      | cons a idx => exact ⟨a, idx, rfl⟩
    have h0 : rowHasValue merged 0 = true :=
      hwf.2.2.2.2 0 (by rw [hidx]; simp)
    have hrow : first_valid_row merged = some 0 := first_valid_row_zero merged h0 hne
    have hfvi : first_valid_index merged = some a := by
      simp [first_valid_index, hrow, hidx]
    have hcolsne : merged.cols ≠ [] := by
      intro hc
      rw [rowHasValue, hc] at h0
      simp at h0
    have hempty : merged.isEmpty = false := by
      rcases hcolseq : merged.cols with _ | ⟨c, cs⟩
      · exact absurd hcolseq hcolsne
      · simp [DataFrame.isEmpty, hidx, hcolseq]
    have h0f : rowHasValue merged.ffill 0 = true := by
      rw [rowHasValue_ffill_zero]
      exact h0
    have hrowf : first_valid_row merged.ffill = some 0 :=
      first_valid_row_zero merged.ffill h0f hne
    have hfvif : first_valid_index merged.ffill = some a := by
      simp [first_valid_index, hrowf, ffill_index, hidx]
    constructor
    · simp only [load_df, h, hempty]
      rfl
    · rw [shiftIndex_some merged a hfvi, shiftIndex_some merged.ffill a hfvif]
      rfl

/-- Witness for C8 at the concrete two-signal engine. -/
theorem c8_toggles_witness :
    load_df tAB ["A", "B"] true true =
      Except.ok
        ((⟨[0, 1, 2],
           [("A", [some 1, none, some 2]),
            ("B", [none, some 9, none])]⟩ : DataFrame).shiftIndex.ffill,
         { engine := engAB, headers := ["A", "B"],
           data := [("A", [((0 : Int), (1 : ℚ)), (2000000, 2)]),
                    ("B", [((1000000 : Int), (9 : ℚ))])] }) ∧
    (⟨[0, 1, 2],
      [("A", [some 1, none, some 2]),
       ("B", [none, some 9, none])]⟩ : DataFrame).shiftIndex.ffill =
      (⟨[0, 1, 2],
        [("A", [some 1, none, some 2]),
         ("B", [none, some 9, none])]⟩ : DataFrame).ffill.shiftIndex :=
  c8_toggles tAB ["A", "B"]
    ⟨[0, 1, 2], [("A", [some 1, none, some 2]), ("B", [none, some 9, none])]⟩
    { engine := engAB, headers := ["A", "B"],
      data := [("A", [((0 : Int), (1 : ℚ)), (2000000, 2)]),
               ("B", [((1000000 : Int), (9 : ℚ))])] }
    go_AB_eval

/-- C10: every row of a non-empty merged frame holds at least one value (row
labels only come from contributing signals); hence the first valid index is
the minimum (first) row label, and with `relative_timestamp` enabled the
returned frame's first row label is exactly 0 and no label is negative. -/
theorem c10_invariants (t : Thermite) (names : List String) (merged : DataFrame)
    (t' : Thermite)
    (h : load_df_go t names DataFrame.empty = Except.ok (merged, t'))
    (hne : merged.index ≠ []) :
    (∀ i, i < merged.index.length → rowHasValue merged i = true) ∧
    (∃ m, merged.index.head? = some m ∧ first_valid_index merged = some m ∧
      ∀ x ∈ merged.index, m ≤ x) ∧
    (∀ ff : Bool, ∃ d t₂, load_df t names ff true = Except.ok (d, t₂) ∧
      d.index.head? = some 0 ∧ ∀ y ∈ d.index, (0 : ℚ) ≤ y) := by
  have hwf : merged.WF :=
    load_df_go_WF names t DataFrame.empty merged t' empty_WF h
  obtain ⟨a, idx, hidx⟩ : ∃ a idx, merged.index = a :: idx := by
    cases hidx : merged.index with
    | nil => exact absurd hidx hne
    | cons a idx => exact ⟨a, idx, rfl⟩
  have h0 : rowHasValue merged 0 = true :=
    hwf.2.2.2.2 0 (by rw [hidx]; simp)
  have hrow : first_valid_row merged = some 0 := first_valid_row_zero merged h0 hne
  have hfvi : first_valid_index merged = some a := by
    simp [first_valid_index, hrow, hidx]
  have hmin : ∀ x ∈ merged.index, a ≤ x := by
    have hsorted := hwf.2.2.1
    rw [hidx] at hsorted
    intro x hx
    rw [hidx] at hx
    rcases List.mem_cons.mp hx with hxa | hxm
    · rw [hxa]
    · exact (List.sorted_cons.mp hsorted).1 x hxm
  have hcolsne : merged.cols ≠ [] := by
    intro hc
    rw [rowHasValue, hc] at h0
    simp at h0
  have hempty : merged.isEmpty = false := by
    rcases hcolseq : merged.cols with _ | ⟨c, cs⟩
    · exact absurd hcolseq hcolsne
    · simp [DataFrame.isEmpty, hidx, hcolseq]
  refine ⟨hwf.2.2.2.2, ⟨a, by rw [hidx]; rfl, hfvi, hmin⟩, ?_⟩
  intro ff
  have hindex : (if ff then merged.shiftIndex.ffill else merged.shiftIndex).index =
      merged.index.map (fun x => x - a) := by
    cases ff
    · simp [shiftIndex_some merged a hfvi]
    · simp [ffill_index, shiftIndex_some merged a hfvi]
  refine ⟨if ff then merged.shiftIndex.ffill else merged.shiftIndex, t', ?_, ?_, ?_⟩
  · simp only [load_df, h, hempty]
    cases ff <;> rfl
  · rw [hindex, hidx]
    simp
  · intro y hy
    rw [hindex] at hy
    rcases List.mem_map.mp hy with ⟨x, hx, hxy⟩
    rw [← hxy]
    have := hmin x hx
    linarith

/-- Witness for C10 at the concrete two-signal engine. -/
theorem c10_invariants_witness :
    (∀ i, i < ((⟨[0, 1, 2],
        [("A", [some 1, none, some 2]),
         ("B", [none, some 9, none])]⟩ : DataFrame)).index.length →
      rowHasValue ⟨[0, 1, 2],
        [("A", [some 1, none, some 2]), ("B", [none, some 9, none])]⟩ i = true) ∧
    (∃ m, ((⟨[0, 1, 2],
        [("A", [some 1, none, some 2]),
         ("B", [none, some 9, none])]⟩ : DataFrame)).index.head? = some m ∧
      first_valid_index ⟨[0, 1, 2],
        [("A", [some 1, none, some 2]), ("B", [none, some 9, none])]⟩ = some m ∧
      ∀ x ∈ ((⟨[0, 1, 2],
        [("A", [some 1, none, some 2]),
         ("B", [none, some 9, none])]⟩ : DataFrame)).index, m ≤ x) ∧
    (∀ ff : Bool, ∃ d t₂, load_df tAB ["A", "B"] ff true = Except.ok (d, t₂) ∧
      d.index.head? = some 0 ∧ ∀ y ∈ d.index, (0 : ℚ) ≤ y) :=
  c10_invariants tAB ["A", "B"]
    ⟨[0, 1, 2], [("A", [some 1, none, some 2]), ("B", [none, some 9, none])]⟩
    { engine := engAB, headers := ["A", "B"],
      data := [("A", [((0 : Int), (1 : ℚ)), (2000000, 2)]),
               ("B", [((1000000 : Int), (9 : ℚ))])] }
    go_AB_eval (by simp)
